import Mathlib

/-!
Verification of the Elucidator driver (`Elucidator.py`).

The driver parses command-line options, reads two style-exemplar files into
the configuration, constructs the docstring service, and then loops over the
decorated filenames: for each one it splits off the scope paths, calls the
engine's `document_file`, optionally previews the merged text, decides
whether to save the file (prompting when both modify and preview are set),
and optionally prints the report entries.

The engine itself (`DocstringService.document_file`, in `docstrings.py`) is
not part of the driver source; following the design spec it is modelled as a
total function returning the merged file text together with the report list
(failures surface as report entries, never as exceptions).

Python strings are modelled as Lean `String` (a list of characters); the
builtins used by the driver (`str.split`, `str.strip`, `str.lower`) are
embedded as executable Lean functions.
-/

namespace Elucidator

/-- Model of Python's `str.split(sep)` for a single-character separator,
on the underlying character list.  `''.split(':') = ['']`,
`'a:'.split(':') = ['a','']`, etc. -/
def pySplitChars (sep : Char) : List Char → List (List Char)
  | [] => [[]]
  | c :: rest =>
    match pySplitChars sep rest with
    | [] => [[c]]
    | h :: t => if c = sep then [] :: h :: t else (c :: h) :: t

/-- Model of Python's `str.split(sep)` for a single-character separator. -/
def pySplit (sep : Char) (s : String) : List String :=
  (pySplitChars sep s.toList).map String.mk

/-- Joining with a separator character: the inverse notion used to state
that `pySplitChars` really splits on the separator. -/
def joinWith (sep : Char) : List (List Char) → List Char
  | [] => []
  | [p] => p
  | p :: ps => p ++ sep :: joinWith sep ps

/-- Lines 79-81 of `Elucidator.py`:
`parts = decorated_filename.split(':')`, `filename = parts[0]`,
`function_paths = None if len(parts) <= 1 else parts[1:]`. -/
def parseDecorated (decorated_filename : String) : String × Option (List String) :=
  let parts := pySplit ':' decorated_filename
  (parts.headD "", if parts.length ≤ 1 then none else some parts.tail)

/-- Python's default whitespace set for `str.strip()`. -/
def isPySpace (c : Char) : Bool :=
  c == ' ' || c == '\t' || c == '\n' || c == '\r' || c == '\x0B' || c == '\x0C'

/-- Model of Python's `str.strip()`: drop leading and trailing whitespace. -/
def pyStrip (l : List Char) : List Char :=
  ((l.dropWhile isPySpace).reverse.dropWhile isPySpace).reverse

/-- Model of Python's `resp.strip().lower() == 'y'` (lines 92-94):
strip surrounding whitespace, lowercase, compare with `y`. -/
def userSaysYes (user_response : String) : Bool :=
  (pyStrip user_response.toList).map Char.toLower == ['y']

/-- The prompt printed by `input(...)` on line 92. -/
def promptMsg (filename : String) : String :=
  "\nDo you want to save these modifications to " ++ filename ++ "? (y/N) "

/-- Line 100: `print(f'Updated {filename}')`. -/
def updatedMsg (filename : String) : String := "Updated " ++ filename

/-- Line 102: `print(f'{filename} was NOT updated.')`. -/
def notUpdatedMsg (filename : String) : String := filename ++ " was NOT updated."

/-- Line 105: `print('-' * 79)`. -/
def sepLine : String := String.mk (List.replicate 79 '-')

/-- The raw command-line values as argparse receives them: the typed
option values (argparse has already converted the tokens with `type=int`)
and the positional filename list. -/
structure RawArgs where
  attempts : Int
  create : Bool
  depth : Int
  log_level : Int
  modify : Bool
  preview : Bool
  report : Bool
  update : Bool
  validate : Bool
  filenames : List String
  deriving Repr, DecidableEq

/-- The parsed configuration: the raw options plus the two style exemplars
read from the fixed sample files (lines 36-39). -/
structure Args where
  attempts : Int
  create : Bool
  depth : Int
  log_level : Int
  modify : Bool
  preview : Bool
  report : Bool
  update : Bool
  validate : Bool
  filenames : List String
  example_docstring : String
  example_function : String
  deriving Repr, DecidableEq

/-- The file system visible to the driver: a partial map from path to
content; `none` models a failing `open(..., 'r')`. -/
structure FileSystem where
  read : String → Option String

/-- Validation argparse performs on the option values declared in
`get_arguments` (lines 10-31): `log_level` carries
`choices=range(0, 3)`, so only 0, 1, 2 are accepted; `attempts` and
`depth` are declared with `type=int` and a `[1-100]` metavar/help text but
NO `choices` constraint, so argparse accepts any integer for them. -/
def parse_ok (raw : RawArgs) : Bool :=
  raw.log_level == 0 || raw.log_level == 1 || raw.log_level == 2

/-- Path of the example-docstring exemplar (line 36). -/
def exampleDocstringPath : String := "samples/example_docstring.txt"

/-- Path of the example-function exemplar (line 38). -/
def exampleFunctionPath : String := "samples/example_function.txt"

/-- Lines 6-41, `get_arguments`: parse the arguments, then read the two
exemplar files into the configuration.  Returns `none` when argparse
rejects the values or either exemplar read fails (in Python an
exception propagates out of `main` before any file is processed). -/
def get_arguments (fs : FileSystem) (raw : RawArgs) : Option Args :=
  if parse_ok raw then
    match fs.read exampleDocstringPath, fs.read exampleFunctionPath with
    | some ed, some ef =>
      some ⟨raw.attempts, raw.create, raw.depth, raw.log_level, raw.modify,
            raw.preview, raw.report, raw.update, raw.validate, raw.filenames, ed, ef⟩
    | _, _ => none
  else none

/-- The engine interface: `document_file(filename, function_paths)`
returns the merged file text and the report list.  Modelled from the spec:
`DocstringService` lives in `docstrings.py`, outside the driver source;
per the spec's error-handling design its failures surface as report
entries, so it is a total function.  The guard on line 104 checks
`reports is not None`, so the report component is modelled as optional. -/
def Engine : Type := String → Option (List String) → String × Option (List String)

/-- Observable effects of one iteration of the driver loop. -/
inductive Event where
  | callEngine (filename : String) (function_paths : Option (List String))
  | printOut (line : String)
  | promptUser (msg : String)
  | writeFile (filename : String) (content : String)
  deriving Repr, DecidableEq

/-- What the driver does with one engine result (lines 84-107), as data:
whether the merged text was printed (preview), whether the user was
prompted, what was written to disk, the status message, which report
entries were printed, and the unconsumed stdin. -/
structure FileOutcome where
  previewed : Option String
  prompted : Bool
  written : Option (String × String)
  statusMsg : Option String
  printedReports : List String
  stdinRest : List String
  deriving Repr, DecidableEq

/-- Line 104's guard: `args.report and reports is not None and
len(reports) > 0`; when it holds the whole report list is printed. -/
def printedReportsOf (args : Args) (reports : Option (List String)) : List String :=
  match reports with
  | some rs => if args.report && !rs.isEmpty then rs else []
  | none => []

/-- Lines 84-107 of `main`, for one file: preview printing, the
save-file decision (`save_file = not args.preview`, overridden by the
user's answer when preview is set), the write and status message, and
report printing.  `stdin` is the stream of `input()` answers; a prompt
consumes one answer. -/
def handle_result (args : Args) (stdin : List String) (filename : String)
    (modified_file : String) (reports : Option (List String)) : FileOutcome :=
  let previewed := if args.preview then some modified_file else none
  if args.modify then
    if args.preview then
      let user_response := stdin.headD ""
      let save_file := userSaysYes user_response
      if save_file then
        ⟨previewed, true, some (filename, modified_file), some (updatedMsg filename),
         printedReportsOf args reports, stdin.tail⟩
      else
        ⟨previewed, true, none, some (notUpdatedMsg filename),
         printedReportsOf args reports, stdin.tail⟩
    else
      ⟨previewed, false, some (filename, modified_file), some (updatedMsg filename),
       printedReportsOf args reports, stdin⟩
  else
    ⟨previewed, false, none, none, printedReportsOf args reports, stdin⟩

/-- Rendering of a `FileOutcome` as the event sequence the driver emits,
in source order: preview print (line 85), prompt (line 92), file write and
status message (lines 97-102), separator and report lines (lines 104-107). -/
def outcomeEvents (filename : String) (o : FileOutcome) : List Event :=
  (match o.previewed with
   | some t => [Event.printOut t]
   | none => []) ++
  (if o.prompted then [Event.promptUser (promptMsg filename)] else []) ++
  (match o.written with
   | some fc => [Event.writeFile fc.1 fc.2]
   | none => []) ++
  (match o.statusMsg with
   | some m => [Event.printOut m]
   | none => []) ++
  (if o.printedReports.isEmpty then []
   else Event.printOut sepLine :: o.printedReports.map Event.printOut)

/-- One iteration of the loop on lines 78-107: split the decorated
filename, call the engine, then handle the result. -/
def process_file (args : Args) (engine : Engine) (stdin : List String)
    (decorated_filename : String) : List Event × List String :=
  let pr := parseDecorated decorated_filename
  let er := engine pr.1 pr.2
  let o := handle_result args stdin pr.1 er.1 er.2
  (Event.callEngine pr.1 pr.2 :: outcomeEvents pr.1 o, o.stdinRest)

/-- The driver loop (lines 78-107) as an accumulating fold over the
filename list, threading the stdin stream and appending each iteration's
events to the console transcript. -/
def mainGo (args : Args) (engine : Engine) :
    List Event → List String → List String → List Event
  | console, _, [] => console
  | console, stdin, f :: fs =>
    mainGo args engine (console ++ (process_file args engine stdin f).1)
      (process_file args engine stdin f).2 fs

/-- The per-file event blocks of the loop, in input order, with the stdin
stream threaded through the iterations. -/
def fileBlocks (args : Args) (engine : Engine) :
    List String → List String → List (List Event)
  | _, [] => []
  | stdin, f :: fs =>
    (process_file args engine stdin f).1 ::
      fileBlocks args engine (process_file args engine stdin f).2 fs

/-- Lines 62-107, `main`: parse arguments (reading the exemplars), build
the service from the parsed configuration, and run the loop.  `none`
models the exception path where `get_arguments` fails before any file is
processed.  `mkEngine` models `DocstringService(args, logger)`: the engine
is constructed from the full configuration, exemplars included. -/
def main (fs : FileSystem) (raw : RawArgs) (mkEngine : Args → Engine)
    (stdin : List String) : Option (List Event) :=
  match get_arguments fs raw with
  | none => none
  | some args => some (mainGo args (mkEngine args) [] stdin args.filenames)

/-! Concrete instances used to evaluate the model on specific inputs. -/

/-- A file system holding only the two exemplar sample files. -/
def sampleFS : FileSystem :=
  ⟨fun p =>
    if p = exampleDocstringPath then some "EXDOC"
    else if p = exampleFunctionPath then some "EXFUN" else none⟩

/-- A file system on which every read fails. -/
def emptyFS : FileSystem := ⟨fun _ => none⟩

/-- An engine that returns fixed text and an empty report list. -/
def constEngine : Engine := fun _ _ => ("MERGED", some [])

/-- A command line with `--attempts 0 --depth 0`, both outside the
documented range `[1..100]`. -/
def rawOutOfRange : RawArgs :=
  ⟨0, false, 0, 0, false, false, false, false, false, ["f.py"]⟩

/-- A parsed configuration with every flag off and one filename. -/
def argsBase : Args :=
  ⟨5, false, 1, 0, false, false, false, false, false, ["a.py"], "EXDOC", "EXFUN"⟩

/-- `argsBase` with the preview flag set. -/
def argsPreview : Args := { argsBase with preview := true }

/-- `argsBase` with the report flag set. -/
def argsReport : Args := { argsBase with report := true }

/-- `argsBase` with both modify and preview set. -/
def argsModifyPreview : Args := { argsBase with modify := true, preview := true }

/-- `argsBase` with modify set and preview unset. -/
def argsModifyOnly : Args := { argsBase with modify := true }

/-- `argsBase` with two filenames. -/
def argsTwoFiles : Args := { argsBase with filenames := ["a.py", "b.py"] }

/-- An in-range command line with one filename. -/
def rawBase : RawArgs :=
  ⟨5, false, 1, 0, false, false, false, false, false, ["a.py"]⟩

/-- An engine whose report list carries a failure entry for every file. -/
def failEngine : Engine := fun _ _ => ("MERGED", some ["ERROR: scope not found"])

end Elucidator

namespace Elucidator

/-! Helper lemmas about the split model. -/

theorem pySplitChars_ne_nil (sep : Char) (l : List Char) :
    pySplitChars sep l ≠ [] := by
  induction l with
  | nil => simp [pySplitChars]
  | cons c rest ih =>
    simp only [pySplitChars]
    cases h : pySplitChars sep rest with
    | nil => simp
    | cons hd tl =>
      by_cases hc : c = sep <;> simp [hc]

theorem pySplitChars_cons (sep c : Char) (rest hd : List Char) (tl : List (List Char))
    (h : pySplitChars sep rest = hd :: tl) :
    pySplitChars sep (c :: rest) =
      if c = sep then [] :: hd :: tl else (c :: hd) :: tl := by
  simp only [pySplitChars, h]

theorem joinWith_pySplitChars (sep : Char) (l : List Char) :
    joinWith sep (pySplitChars sep l) = l := by
  induction l with
  | nil => simp [pySplitChars, joinWith]
  | cons c rest ih =>
    obtain ⟨hd, tl, h⟩ := List.exists_cons_of_ne_nil (pySplitChars_ne_nil sep rest)
    rw [h] at ih
    rw [pySplitChars_cons sep c rest hd tl h]
    by_cases hc : c = sep
    · subst hc
      rw [if_pos rfl]
      cases tl with
      | nil => simpa [joinWith] using ih
      | cons x xs => simpa [joinWith] using ih
    · rw [if_neg hc]
      cases tl with
      | nil => simpa [joinWith] using ih
      | cons x xs => simpa [joinWith] using ih

theorem pySplitChars_no_sep (sep : Char) (l : List Char) :
    ∀ p ∈ pySplitChars sep l, sep ∉ p := by
  induction l with
  | nil => simp [pySplitChars]
  | cons c rest ih =>
    obtain ⟨hd, tl, h⟩ := List.exists_cons_of_ne_nil (pySplitChars_ne_nil sep rest)
    rw [h] at ih
    rw [pySplitChars_cons sep c rest hd tl h]
    by_cases hc : c = sep
    · subst hc
      rw [if_pos rfl]
      intro p hp
      rcases List.mem_cons.mp hp with rfl | hp2
      · simp
      · rcases List.mem_cons.mp hp2 with rfl | hp3
        · exact ih p (List.mem_cons_self p tl)
        · exact ih p (List.mem_cons_of_mem hd hp3)
    · rw [if_neg hc]
      intro p hp
      rcases List.mem_cons.mp hp with rfl | hp2
      · intro hm
        rcases List.mem_cons.mp hm with h1 | h2
        · exact hc h1.symm
        · exact ih hd (List.mem_cons_self hd tl) h2
      · exact ih p (List.mem_cons_of_mem hd hp2)

theorem pySplitChars_of_no_sep (sep : Char) (l : List Char) (h : sep ∉ l) :
    pySplitChars sep l = [l] := by
  induction l with
  | nil => simp [pySplitChars]
  | cons c rest ih =>
    simp only [List.mem_cons, not_or] at h
    rw [pySplitChars_cons sep c rest rest [] (ih h.2)]
    simp [Ne.symm h.1]

theorem toList_mk (l : List Char) : (String.mk l).toList = l := rfl

theorem mk_toList (s : String) : String.mk s.toList = s := rfl

/-- C1: the driver splits every decorated filename on ':': the segment
before the first colon becomes the filename handed to the engine, the
subsequent colon-separated segments become the scope-path list, and a
filename containing no colon yields an absent (`none`) scope-path list. -/
theorem C1_split_decorated_filename (s : String) :
    (':' ∉ s.toList → parseDecorated s = (s, none)) ∧
    (∀ ps, (parseDecorated s).2 = some ps →
      ps ≠ [] ∧
      ':' ∉ (parseDecorated s).1.toList ∧
      (∀ p ∈ ps, ':' ∉ p.toList) ∧
      s.toList = (parseDecorated s).1.toList ++ ':' :: joinWith ':' (ps.map String.toList)) := by
  constructor
  · intro hnc
    have h1 : pySplitChars ':' s.data = [s.data] := pySplitChars_of_no_sep ':' s.toList hnc
    have h2 : pySplit ':' s = [s] := by
      show (pySplitChars ':' s.data).map String.mk = [s]
      rw [h1]
      simp [mk_toList]
    simp [parseDecorated, h2]
  · intro ps hps
    obtain ⟨hd, tl, h⟩ := List.exists_cons_of_ne_nil (pySplitChars_ne_nil ':' s.toList)
    have hdat : pySplitChars ':' s.data = hd :: tl := h
    cases tl with
    | nil => simp [parseDecorated, pySplit, hdat] at hps
    | cons x xs =>
      have hsplit : pySplit ':' s = String.mk hd :: (x :: xs).map String.mk := by
        show (pySplitChars ':' s.data).map String.mk = _
        rw [hdat]
        simp
      have hpd : parseDecorated s = (String.mk hd, some ((x :: xs).map String.mk)) := by
        simp [parseDecorated, hsplit]
      rw [hpd] at hps
      have hps2 : ps = (x :: xs).map String.mk := (Option.some_inj.mp hps).symm
      have hfst : (parseDecorated s).1 = String.mk hd := by rw [hpd]
      refine ⟨?_, ?_, ?_, ?_⟩
      · subst hps2; simp
      · rw [hfst, toList_mk]
        exact pySplitChars_no_sep ':' s.toList hd (h ▸ List.mem_cons_self hd (x :: xs))
      · intro p hp
        subst hps2
        obtain ⟨q, hq, rfl⟩ := List.mem_map.mp hp
        rw [toList_mk]
        exact pySplitChars_no_sep ':' s.toList q (h ▸ List.mem_cons_of_mem hd hq)
      · rw [hfst, toList_mk]
        subst hps2
        have hj : joinWith ':' (hd :: x :: xs) = s.toList := by
          rw [← hdat]
          exact joinWith_pySplitChars ':' s.toList
        show s.toList = hd ++ ':' :: joinWith ':' (((x :: xs).map String.mk).map String.toList)
        rw [← hj]
        simp [joinWith, List.map_map, Function.comp_def, toList_mk]

/-- C1 witness: on `module.py` (no colon) the scope-path list is absent,
and `a.py:f.g:h` decomposes into filename `a.py` and scope paths
`f.g`, `h`. -/
theorem C1_split_decorated_filename_witness :
    parseDecorated "module.py" = ("module.py", none) ∧
    "a.py:f.g:h".toList =
      (parseDecorated "a.py:f.g:h").1.toList ++
        ':' :: joinWith ':' (["f.g", "h"].map String.toList) := by
  constructor
  · exact (C1_split_decorated_filename "module.py").1 (by decide)
  · exact ((C1_split_decorated_filename "a.py:f.g:h").2 ["f.g", "h"] (by decide)).2.2.2

/-! Helper lemmas about `handle_result` and the driver loop. -/

theorem handle_result_printedReports (args : Args) (stdin : List String)
    (filename modified_file : String) (reports : Option (List String)) :
    (handle_result args stdin filename modified_file reports).printedReports
      = printedReportsOf args reports := by
  cases hm : args.modify <;> cases hp : args.preview <;>
    cases hy : userSaysYes (stdin.headD "") <;>
      rw [List.headD_eq_head?] at hy <;>
        simp [handle_result, hm, hp, hy]

theorem handle_result_previewed (args : Args) (stdin : List String)
    (filename modified_file : String) (reports : Option (List String))
    (h : args.preview = true) :
    (handle_result args stdin filename modified_file reports).previewed
      = some modified_file := by
  cases hm : args.modify <;> cases hy : userSaysYes (stdin.headD "") <;>
    rw [List.headD_eq_head?] at hy <;>
      simp [handle_result, hm, h, hy]

theorem handle_result_no_modify (args : Args) (stdin : List String)
    (filename modified_file : String) (reports : Option (List String))
    (h : args.modify = false) :
    (handle_result args stdin filename modified_file reports).written = none := by
  simp [handle_result, h]

theorem process_file_fst (args : Args) (engine : Engine) (stdin : List String)
    (f : String) :
    (process_file args engine stdin f).1 =
      Event.callEngine (parseDecorated f).1 (parseDecorated f).2 ::
        outcomeEvents (parseDecorated f).1
          (handle_result args stdin (parseDecorated f).1
            (engine (parseDecorated f).1 (parseDecorated f).2).1
            (engine (parseDecorated f).1 (parseDecorated f).2).2) := rfl

theorem mainGo_append (args : Args) (engine : Engine) (files : List String) :
    ∀ (acc : List Event) (stdin : List String),
      mainGo args engine acc stdin files = acc ++ mainGo args engine [] stdin files := by
  induction files with
  | nil => intro acc stdin; simp [mainGo]
  | cons f fs ih =>
    intro acc stdin
    simp only [mainGo, List.nil_append]
    rw [ih (acc ++ (process_file args engine stdin f).1) (process_file args engine stdin f).2,
        ih ((process_file args engine stdin f).1) (process_file args engine stdin f).2]
    simp [List.append_assoc]

theorem mainGo_eq_flatten (args : Args) (engine : Engine) (files : List String) :
    ∀ stdin : List String,
      mainGo args engine [] stdin files = (fileBlocks args engine stdin files).flatten := by
  induction files with
  | nil => intro stdin; simp [mainGo, fileBlocks]
  | cons f fs ih =>
    intro stdin
    simp only [mainGo, fileBlocks, List.flatten_cons]
    rw [mainGo_append, ih]
    simp

theorem fileBlocks_forall_calls (args : Args) (engine : Engine) (files : List String) :
    ∀ stdin : List String,
      List.Forall₂ (fun fn block => ∃ rest,
          block = Event.callEngine (parseDecorated fn).1 (parseDecorated fn).2 :: rest)
        files (fileBlocks args engine stdin files) := by
  induction files with
  | nil => intro stdin; simp [fileBlocks]
  | cons f fs ih =>
    intro stdin
    simp only [fileBlocks]
    exact List.Forall₂.cons ⟨_, process_file_fst args engine stdin f⟩ (ih _)

theorem callEngine_mem_mainGo (args : Args) (engine : Engine) (files : List String) :
    ∀ (stdin : List String) (fn : String), fn ∈ files →
      Event.callEngine (parseDecorated fn).1 (parseDecorated fn).2 ∈
        mainGo args engine [] stdin files := by
  induction files with
  | nil => intro stdin fn h; exact absurd h (List.not_mem_nil fn)
  | cons f fs ih =>
    intro stdin fn h
    simp only [mainGo]
    rw [mainGo_append, List.nil_append]
    rcases List.mem_cons.mp h with rfl | h2
    · apply List.mem_append_left
      rw [process_file_fst]
      exact List.mem_cons_self _ _
    · exact List.mem_append_right _ (ih _ fn h2)

/-- C2 (evidence of the code bug): argparse as configured in
`get_arguments` does not constrain `attempts` or `depth` (only `log_level`
carries a `choices` restriction), so a command line with `attempts = 0`
and `depth = 0` — both outside the documented range `[1..100]` — is
accepted and the driver goes on to process the file. -/
theorem C2_out_of_range_not_rejected :
    (get_arguments sampleFS rawOutOfRange).isSome = true ∧
    (∃ args, get_arguments sampleFS rawOutOfRange = some args ∧
      args.attempts = 0 ∧ args.depth = 0) ∧
    main sampleFS rawOutOfRange (fun _ => constEngine) [] =
      some [Event.callEngine "f.py" none] := by
  refine ⟨rfl, ⟨⟨0, false, 0, 0, false, false, false, false, false, ["f.py"],
    "EXDOC", "EXFUN"⟩, by decide, rfl, rfl⟩, ?_⟩
  decide

/-- C3: the decision to preview, prompt, write, or discard — and the
status message and stdin consumption — depends only on the flags, the
merged text, and the confirmation input, never on the report list: two
engine results differing only in their reports produce identical
write/preview/discard behavior. -/
theorem C3_save_decision_independent_of_reports (args : Args) (stdin : List String)
    (filename modified_file : String) (r₁ r₂ : Option (List String)) :
    (handle_result args stdin filename modified_file r₁).previewed
        = (handle_result args stdin filename modified_file r₂).previewed ∧
    (handle_result args stdin filename modified_file r₁).prompted
        = (handle_result args stdin filename modified_file r₂).prompted ∧
    (handle_result args stdin filename modified_file r₁).written
        = (handle_result args stdin filename modified_file r₂).written ∧
    (handle_result args stdin filename modified_file r₁).statusMsg
        = (handle_result args stdin filename modified_file r₂).statusMsg ∧
    (handle_result args stdin filename modified_file r₁).stdinRest
        = (handle_result args stdin filename modified_file r₂).stdinRest := by
  cases hm : args.modify <;> cases hp : args.preview <;>
    cases hy : userSaysYes (stdin.headD "") <;>
      rw [List.headD_eq_head?] at hy <;>
        simp [handle_result, hm, hp, hy]

/-- C4: processing one file never aborts the batch: for any engine
(including one whose results carry failure reports for every file), every
filename supplied to the loop still gets its engine call. -/
theorem C4_file_failure_does_not_abort_batch (args : Args) (engine : Engine)
    (stdin : List String) (fn : String) (hfn : fn ∈ args.filenames) :
    Event.callEngine (parseDecorated fn).1 (parseDecorated fn).2 ∈
      mainGo args engine [] stdin args.filenames :=
  callEngine_mem_mainGo args engine args.filenames stdin fn hfn

/-- C4 witness: with an engine that reports a failure on every file, the
second of two files is still processed. -/
theorem C4_file_failure_does_not_abort_batch_witness :
    "b.py" ∈ argsTwoFiles.filenames ∧
    Event.callEngine "b.py" none ∈
      mainGo argsTwoFiles failEngine [] [] argsTwoFiles.filenames :=
  ⟨by decide, C4_file_failure_does_not_abort_batch argsTwoFiles failEngine [] "b.py" (by decide)⟩

/-- C8: the driver is sequential: the transcript of the loop is exactly
the concatenation, in input order, of one event block per filename, and
each block opens with that file's engine call (so a file's engine call,
preview, save decision, and report printing all precede the next file's
processing). -/
theorem C8_sequential_processing (args : Args) (engine : Engine) (stdin : List String) :
    mainGo args engine [] stdin args.filenames
      = (fileBlocks args engine stdin args.filenames).flatten ∧
    List.Forall₂ (fun fn block => ∃ rest,
        block = Event.callEngine (parseDecorated fn).1 (parseDecorated fn).2 :: rest)
      args.filenames (fileBlocks args engine stdin args.filenames) :=
  ⟨mainGo_eq_flatten args engine args.filenames stdin,
   fileBlocks_forall_calls args engine args.filenames stdin⟩

/-- C5: with the preview flag set, the loop iteration prints the full
merged source text returned by the engine for that file. -/
theorem C5_preview_prints_merged_text (args : Args) (engine : Engine)
    (stdin : List String) (f : String) (h : args.preview = true) :
    Event.printOut (engine (parseDecorated f).1 (parseDecorated f).2).1 ∈
      (process_file args engine stdin f).1 := by
  rw [process_file_fst]
  apply List.mem_cons_of_mem
  simp only [outcomeEvents,
    handle_result_previewed args stdin (parseDecorated f).1
      (engine (parseDecorated f).1 (parseDecorated f).2).1
      (engine (parseDecorated f).1 (parseDecorated f).2).2 h]
  simp

/-- C5 witness: with preview set, the engine's merged text `MERGED` is
printed even though nothing is written. -/
theorem C5_preview_prints_merged_text_witness :
    argsPreview.preview = true ∧
    Event.printOut "MERGED" ∈ (process_file argsPreview constEngine [] "a.py").1 :=
  ⟨rfl, C5_preview_prints_merged_text argsPreview constEngine [] "a.py" rfl⟩

theorem writeFile_mem_outcomeEvents (filename fn c : String) (o : FileOutcome) :
    Event.writeFile fn c ∈ outcomeEvents filename o ↔ o.written = some (fn, c) := by
  rcases o with ⟨pv, pr, wr, sm, rp, sr⟩
  unfold outcomeEvents
  rcases pv with _ | t <;> rcases wr with _ | ⟨wfn, wc⟩ <;> rcases sm with _ | m <;>
    cases pr <;> by_cases hrp : rp.isEmpty <;>
      simp [hrp, List.mem_map, and_comm, eq_comm]

/-- C6: with preview set and modify unset, the loop iteration performs no
file write at all: no write event occurs for any path or content, so the
on-disk file is untouched. -/
theorem C6_preview_without_modify_never_writes (args : Args) (engine : Engine)
    (stdin : List String) (f : String) (h1 : args.preview = true)
    (h2 : args.modify = false) (fn c : String) :
    Event.writeFile fn c ∉ (process_file args engine stdin f).1 := by
  rw [process_file_fst]
  intro hmem
  rcases List.mem_cons.mp hmem with heq | hmem2
  · exact Event.noConfusion heq
  · rw [writeFile_mem_outcomeEvents,
      handle_result_no_modify args stdin (parseDecorated f).1
        (engine (parseDecorated f).1 (parseDecorated f).2).1
        (engine (parseDecorated f).1 (parseDecorated f).2).2 h2] at hmem2
    exact Option.noConfusion hmem2

/-- C6 witness: with preview set and modify unset, no write event is
emitted for `a.py`. -/
theorem C6_preview_without_modify_never_writes_witness :
    argsPreview.preview = true ∧ argsPreview.modify = false ∧
    Event.writeFile "a.py" "MERGED" ∉ (process_file argsPreview constEngine [] "a.py").1 :=
  ⟨rfl, rfl,
   C6_preview_without_modify_never_writes argsPreview constEngine [] "a.py" rfl rfl
     "a.py" "MERGED"⟩

/-- C7: the report entries returned by the engine are printed — all of
them, in order — exactly when the report flag is set and the list is
non-empty; otherwise nothing of the report is printed. -/
theorem C7_reports_printed_iff_enabled_and_nonempty (args : Args)
    (stdin : List String) (filename modified_file : String) (rs : List String) :
    ((args.report = true ∧ rs ≠ []) →
      (handle_result args stdin filename modified_file (some rs)).printedReports = rs) ∧
    (¬(args.report = true ∧ rs ≠ []) →
      (handle_result args stdin filename modified_file (some rs)).printedReports = []) := by
  simp only [handle_result_printedReports]
  constructor
  · rintro ⟨hr, hne⟩
    rcases rs with _ | ⟨a, as⟩
    · exact absurd rfl hne
    · simp [printedReportsOf, hr]
  · intro hn
    cases hrep : args.report with
    | false => simp [printedReportsOf, hrep]
    | true =>
      have hrs : rs = [] := by
        by_contra hne
        exact hn ⟨hrep, hne⟩
      subst hrs
      simp [printedReportsOf]

/-- C7 witness: with the report flag set and one failure entry, exactly
that entry is printed. -/
theorem C7_reports_printed_iff_enabled_and_nonempty_witness :
    (argsReport.report = true ∧ (["scope foo: failed"] : List String) ≠ []) ∧
    (handle_result argsReport [] "a.py" "MERGED" (some ["scope foo: failed"])).printedReports
      = ["scope foo: failed"] :=
  ⟨⟨rfl, by decide⟩,
   (C7_reports_printed_iff_enabled_and_nonempty argsReport [] "a.py" "MERGED"
     ["scope foo: failed"]).1 ⟨rfl, by decide⟩⟩

/-- C9: the two style exemplars are read from the fixed sample files into
the configuration during argument parsing; if either read fails, `main`
stops before processing any file. -/
theorem C9_exemplars_read_before_processing (fs : FileSystem) (raw : RawArgs)
    (mkEngine : Args → Engine) (stdin : List String) :
    ((fs.read exampleDocstringPath = none ∨ fs.read exampleFunctionPath = none) →
      main fs raw mkEngine stdin = none) ∧
    (∀ args, get_arguments fs raw = some args →
      fs.read exampleDocstringPath = some args.example_docstring ∧
      fs.read exampleFunctionPath = some args.example_function) := by
  constructor
  · intro hfail
    unfold main get_arguments
    by_cases hok : parse_ok raw
    · rcases h1 : fs.read exampleDocstringPath with _ | ed <;>
        rcases h2 : fs.read exampleFunctionPath with _ | ef <;>
          simp [hok, h1, h2] <;>
            rcases hfail with hf | hf <;> simp_all
    · simp [hok]
  · intro args hargs
    unfold get_arguments at hargs
    by_cases hok : parse_ok raw
    · rcases h1 : fs.read exampleDocstringPath with _ | ed <;>
        rcases h2 : fs.read exampleFunctionPath with _ | ef <;>
          simp [hok, h1, h2] at hargs
      subst hargs
      exact ⟨rfl, rfl⟩
    · simp [hok] at hargs

/-- C9 witness: on a file system where the exemplar reads fail no file is
processed, and on `sampleFS` the parsed configuration carries the file
contents. -/
theorem C9_exemplars_read_before_processing_witness :
    emptyFS.read exampleDocstringPath = none ∧
    main emptyFS rawBase (fun _ => constEngine) [] = none ∧
    sampleFS.read exampleDocstringPath = some "EXDOC" := by
  refine ⟨rfl, ?_, ?_⟩
  · exact (C9_exemplars_read_before_processing emptyFS rawBase
      (fun _ => constEngine) []).1 (Or.inl rfl)
  · exact ((C9_exemplars_read_before_processing sampleFS rawBase
      (fun _ => constEngine) []).2
        ⟨5, false, 1, 0, false, false, false, false, false, ["a.py"], "EXDOC", "EXFUN"⟩
        (by decide)).1

/-- C10: with modify set, the driver prompts exactly when preview is also
set; it then writes the merged text exactly when the stripped, lowercased
response is `y`; with modify set and preview unset it writes
unconditionally, without prompting. -/
theorem C10_modify_prompt_and_write (args : Args) (stdin : List String)
    (filename modified_file : String) (reports : Option (List String))
    (h : args.modify = true) :
    ((handle_result args stdin filename modified_file reports).prompted = true ↔
      args.preview = true) ∧
    (args.preview = true →
      ((handle_result args stdin filename modified_file reports).written
          = some (filename, modified_file) ↔
        (pyStrip (stdin.headD "").toList).map Char.toLower = ['y'])) ∧
    (args.preview = true →
      (pyStrip (stdin.headD "").toList).map Char.toLower ≠ ['y'] →
      (handle_result args stdin filename modified_file reports).written = none) ∧
    (args.preview = false →
      (handle_result args stdin filename modified_file reports).prompted = false ∧
      (handle_result args stdin filename modified_file reports).written
        = some (filename, modified_file)) := by
  cases hp : args.preview
  · simp [handle_result, h, hp]
  · by_cases hy : (pyStrip (stdin.headD "").toList).map Char.toLower = ['y']
    · have hb : userSaysYes (stdin.headD "") = true := by
        simp only [userSaysYes, beq_iff_eq]
        exact hy
      rw [List.headD_eq_head?] at hb
      rw [List.headD_eq_head?] at hy
      simp [handle_result, h, hp, hb, hy]
      exact hy
    · have hb : userSaysYes (stdin.headD "") = false := by
        simp only [userSaysYes, beq_eq_false_iff_ne, ne_eq]
        exact hy
      rw [List.headD_eq_head?] at hb
      rw [List.headD_eq_head?] at hy
      simp [handle_result, h, hp, hb, hy]
      exact hy

/-- C10 witness: with modify and preview set, answering `  Y  ` saves the
file; with modify alone the file is written without prompting. -/
theorem C10_modify_prompt_and_write_witness :
    argsModifyPreview.modify = true ∧
    (handle_result argsModifyPreview ["  Y  "] "a.py" "MERGED" none).written
      = some ("a.py", "MERGED") ∧
    (handle_result argsModifyOnly [] "a.py" "MERGED" none).written
      = some ("a.py", "MERGED") ∧
    (handle_result argsModifyOnly [] "a.py" "MERGED" none).prompted = false := by
  refine ⟨rfl, ?_, ?_, ?_⟩
  · exact ((C10_modify_prompt_and_write argsModifyPreview ["  Y  "] "a.py" "MERGED"
      none rfl).2.1 rfl).mpr (by decide)
  · exact ((C10_modify_prompt_and_write argsModifyOnly [] "a.py" "MERGED"
      none rfl).2.2.2 rfl).2
  · exact ((C10_modify_prompt_and_write argsModifyOnly [] "a.py" "MERGED"
      none rfl).2.2.2 rfl).1

end Elucidator
